import Mathlib

/-!
Verification of the log correlation / metrics-aggregation engine and the
capacity estimator of this repository (source: src/cloud.py).

Python floats are modelled as exact rationals (`ℚ`), datetimes as integers
(they are only ever compared), and Python dictionaries as explicit update
functions together with an insertion-ordered key list where iteration order
matters.  Fallible Python code is modelled with `Option`.
-/

set_option allowUnsafeReducibility true in
attribute [semireducible] Rat.mul Rat.add Rat.sub Rat.inv Rat.ofScientific

namespace Cloud

/-- Python's `str.lower()` on the ASCII unit tokens that the source compares
against. -/
def pyLower (s : String) : String := String.mk (s.toList.map Char.toLower)

/-- Python's `round` uses banker's rounding (round half to even). -/
def roundHalfEven (q : ℚ) : ℤ :=
  let f := ⌊q⌋
  let r := q - (f : ℚ)
  if r < 1/2 then f
  else if 1/2 < r then f + 1
  else if f % 2 = 0 then f else f + 1

/-- Python's `round(q, k)`: round half to even at `k` decimal digits. -/
def pyRound (q : ℚ) (k : ℕ) : ℚ :=
  (roundHalfEven (q * 10 ^ k) : ℚ) / 10 ^ k

/-! ## UnitNormalizer (src/cloud.py, `_normalize_time_seconds`, lines 1256-1266
and `_normalize_memory_mb`, lines 1268-1285) -/

/-- `ResourceAnalyzer._normalize_time_seconds` (src/cloud.py:1256-1266). -/
def normalize_time_seconds (value : ℚ) (unit : Option String) : Option ℚ :=
  if value ≤ 0 then none
  else
    match unit with
    | some u =>
        let u := pyLower u
        if u = "ms" ∨ u = "msec" then some (value / 1000)
        else some value
    | none =>
        if value > 1000 then some (value / 1000)
        else some value

/-- The unitless magnitude heuristic of `_normalize_memory_mb`
(src/cloud.py:1281-1285); the unit branch falls through to the same lines
when the unit token is not recognized. -/
def memory_magnitude_heuristic (value : ℚ) : ℚ :=
  if value ≥ 1024 * 1024 then value / (1024 * 1024)
  else if value ≥ 5000 then value / 1024
  else value

/-- `ResourceAnalyzer._normalize_memory_mb` (src/cloud.py:1268-1285). -/
def normalize_memory_mb (value : ℚ) (unit : Option String) : Option ℚ :=
  if value ≤ 0 then none
  else
    match unit with
    | some u =>
        let u := pyLower u
        if u = "b" ∨ u = "bytes" then some (value / (1024 * 1024))
        else if u = "kb" ∨ u = "k" then some (value / 1024)
        else if u = "mb" ∨ u = "m" then some value
        else if u = "gb" ∨ u = "g" then some (value * 1024)
        else some (memory_magnitude_heuristic value)
    | none => some (memory_magnitude_heuristic value)


/-! ## PercentileEngine (src/cloud.py, `_percentile`, lines 1501-1514) -/

/-- Python's `int()` truncates toward zero. -/
def pyTrunc (q : ℚ) : ℤ := if q < 0 then -⌊-q⌋ else ⌊q⌋

/-- `ResourceAnalyzer._percentile` (src/cloud.py:1501-1514).  Python's
`sorted` is modelled by the stable `insertionSort`; list indexing is modelled
by `getD` (the claims only exercise in-range nonnegative indices, where the
two agree). -/
def percentile (values : List ℚ) (p : ℚ) : Option ℚ :=
  if values.isEmpty then none
  else
    let sorted_values := values.insertionSort (· ≤ ·)
    if sorted_values.length = 1 then some (sorted_values.getD 0 0)
    else
      let rank : ℚ := (p / 100) * ((sorted_values.length : ℚ) - 1)
      let lower_index : ℤ := pyTrunc rank
      let upper_index : ℤ := min (lower_index + 1) ((sorted_values.length : ℤ) - 1)
      let fraction : ℚ := rank - (lower_index : ℚ)
      some (sorted_values.getD lower_index.toNat 0 * (1 - fraction) +
        sorted_values.getD upper_index.toNat 0 * fraction)

/-- Modelled from the spec's words, for refinement comparison with
`percentile`: sort ascending, fractional rank `r = (p/100)·(n-1)`, and
linear interpolation between the floor-index and ceiling-index values using
the fractional part of `r`. -/
def percentileSpecFormula (values : List ℚ) (p : ℚ) : Option ℚ :=
  if values.isEmpty then none
  else
    let sorted_values := values.insertionSort (· ≤ ·)
    if sorted_values.length = 1 then some (sorted_values.getD 0 0)
    else
      let r : ℚ := (p / 100) * ((sorted_values.length : ℚ) - 1)
      some (sorted_values.getD (⌊r⌋).toNat 0 * (1 - Int.fract r) +
        sorted_values.getD (⌈r⌉).toNat 0 * Int.fract r)

/-! ## StreamAggregator for the slow log
(src/cloud.py, `analyze_slow_logs`: `record_entry` lines 866-882, the
per-script summary rows lines 943-954, and the final sort lines 956-960) -/

/-- One logical slow-log entry, as accumulated between date headers
(src/cloud.py:899, 905): optional script, optional date, optional duration,
and the set of plugins seen in its trace frames. -/
structure SlowEntry where
  script : Option String
  date : Option ℤ
  duration : Option ℚ
  plugins : List String
deriving DecidableEq

/-- The per-script running statistics held in the `slow_requests` defaultdict
(src/cloud.py:771-773). -/
structure SlowStats where
  count : ℕ
  total_time : ℚ
  max_time : ℚ
  timed_count : ℕ
deriving DecidableEq

/-- The zero entry a `defaultdict` materializes on first access
(src/cloud.py:772). -/
def SlowStats.init : SlowStats := ⟨0, 0, 0, 0⟩

/-- The aggregation state of `analyze_slow_logs`: the `slow_requests`
defaultdict (as its insertion-ordered key list plus a total map defaulting to
`SlowStats.init`) and the `plugin_entry_counts` tally. -/
structure SlowLogState where
  keys : List String
  stats : String → SlowStats
  plugin_entry_counts : String → ℕ

/-- The empty aggregation state (all defaultdicts empty). -/
def SlowLogState.init : SlowLogState :=
  ⟨[], fun _ => SlowStats.init, fun _ => 0⟩

/-- The cutoff test of `record_entry` (src/cloud.py:870-872): an absent date
never filters the entry. -/
def date_before_cutoff (cutoff : ℤ) : Option ℤ → Bool
  | some d => d < cutoff
  | none => false

/-- `record_entry` (src/cloud.py:866-882): skip entries without a script or
older than the cutoff (dateless entries are never filtered), bump `count`,
and when a duration was parsed bump `timed_count`, add to `total_time` and
update `max_time`; finally bump `plugin_entry_counts` for each plugin of the
entry. -/
def record_entry (cutoff : ℤ) (st : SlowLogState) (e : SlowEntry) : SlowLogState :=
  match e.script with
  | none => st
  | some script =>
    if script = "" then st
    else if date_before_cutoff cutoff e.date then st
    else
      let data := st.stats script
      let data := { data with count := data.count + 1 }
      let data :=
        match e.duration with
        | some duration =>
            { data with
              timed_count := data.timed_count + 1
              total_time := data.total_time + duration
              max_time := max data.max_time duration }
        | none => data
      { keys := if script ∈ st.keys then st.keys else st.keys ++ [script]
        stats := fun s => if s = script then data else st.stats s
        plugin_entry_counts := fun pl =>
          if pl ∈ e.plugins then st.plugin_entry_counts pl + 1
          else st.plugin_entry_counts pl }

/-- Folding a sequence of slow-log entries through `record_entry`, as the
line loop of `analyze_slow_logs` does (src/cloud.py:901-933). -/
def fold_entries (cutoff : ℤ) (entries : List SlowEntry) : SlowLogState :=
  entries.foldl (record_entry cutoff) SlowLogState.init

/-- The per-script summary row built in `analyze_slow_logs`
(src/cloud.py:947-954). -/
structure SlowScriptRow where
  script : String
  count : ℕ
  avg_time : Option ℚ
  max_time : Option ℚ
  total_time : Option ℚ
  timed_count : ℕ
deriving DecidableEq

/-- Building one summary row from the accumulated stats
(src/cloud.py:944-954): the average is derived on read as
`total_time / timed_count` when any timed sample exists, else `None`. -/
def slow_script_row (script : String) (data : SlowStats) : SlowScriptRow :=
  let timed_count := data.timed_count
  let avg_time : Option ℚ :=
    if timed_count > 0 then some (data.total_time / (timed_count : ℚ)) else none
  { script := script
    count := data.count
    avg_time := avg_time.map (fun q => pyRound q 3)
    max_time := if timed_count > 0 then some (pyRound data.max_time 3) else none
    total_time := if timed_count > 0 then some (pyRound data.total_time 3) else none
    timed_count := timed_count }

/-- The sort key of the final ranking (src/cloud.py:958):
`(total_time if total_time is not None else 0, count)`. -/
def row_sort_key (x : SlowScriptRow) : ℚ × ℕ := (x.total_time.getD 0, x.count)

/-- The order in which `slow_scripts.sort(key=..., reverse=True)`
(src/cloud.py:956-960) arranges rows: `a` may precede `b` exactly when `a`'s
key is lexicographically at least `b`'s.  Python's sort is stable, and a
stable sort by a total transitive relation is unique, so the stable
`insertionSort` below models it faithfully. -/
def row_rank_ge (a b : SlowScriptRow) : Prop :=
  (row_sort_key b).1 < (row_sort_key a).1 ∨
    ((row_sort_key b).1 = (row_sort_key a).1 ∧ (row_sort_key b).2 ≤ (row_sort_key a).2)

instance : DecidableRel row_rank_ge := fun a b => by
  unfold row_rank_ge
  infer_instance

instance : IsTrans SlowScriptRow row_rank_ge := by
  constructor
  intro a b c hab hbc
  rcases hab with h1 | ⟨h1, h1c⟩ <;> rcases hbc with h2 | ⟨h2, h2c⟩
  · exact Or.inl (h2.trans h1)
  · exact Or.inl (h2.trans_lt h1)
  · exact Or.inl (h2.trans_eq h1)
  · exact Or.inr ⟨h2.trans h1, h2c.trans h1c⟩

instance : IsTotal SlowScriptRow row_rank_ge := by
  constructor
  intro a b
  rcases lt_trichotomy (row_sort_key a).1 (row_sort_key b).1 with h | h | h
  · exact Or.inr (Or.inl h)
  · rcases Nat.le_total (row_sort_key a).2 (row_sort_key b).2 with hc | hc
    · exact Or.inr (Or.inr ⟨h, hc⟩)
    · exact Or.inl (Or.inr ⟨h.symm, hc⟩)
  · exact Or.inl (Or.inl h)

/-- The final ranking sort of `analyze_slow_logs` (src/cloud.py:956-960). -/
def sort_slow_scripts (rows : List SlowScriptRow) : List SlowScriptRow :=
  rows.insertionSort row_rank_ge

/-! ## CapacityEstimator
(src/cloud.py, `ConcurrencyEstimator.estimate_concurrent_users`,
lines 1878-1963, and `_get_capacity_recommendation`, lines 1965-1974) -/

/-- What one load level measures once its workers have joined
(src/cloud.py:1892-1929): the shared success/error counters, the response
time samples in milliseconds, and the elapsed wall-clock seconds since the
level started (read by the budget check at line 1945).  The concurrent
probing itself is I/O; the model takes the measurements of each level as a
function of the concurrency level. -/
structure LevelMeasurement where
  success_count : ℕ
  error_count : ℕ
  response_times : List ℚ
  elapsed : ℚ
deriving DecidableEq

/-- One retained level record (src/cloud.py:1936-1940). -/
structure CapacityLevel where
  concurrent_users : ℕ
  success_rate : ℚ
  avg_response_ms : ℚ
deriving DecidableEq

/-- `success_rate = success/(success+error)*100`, `0` when no request
finished (src/cloud.py:1927-1928). -/
def success_rate (m : LevelMeasurement) : ℚ :=
  if m.success_count + m.error_count > 0 then
    (m.success_count : ℚ) / ((m.success_count : ℚ) + (m.error_count : ℚ)) * 100
  else 0

/-- `statistics.mean(response_times)`, `0` when no sample
(src/cloud.py:1929). -/
def avg_response_time (m : LevelMeasurement) : ℚ :=
  if m.response_times.isEmpty then 0
  else m.response_times.sum / (m.response_times.length : ℚ)

/-- The acceptance gate (src/cloud.py:1934): strictly more than 95 percent
success and strictly under 5000 ms average response. -/
def level_passes (m : LevelMeasurement) : Bool :=
  decide (success_rate m > 95) && decide (avg_response_time m < 5000)

/-- The record appended for an accepted level (src/cloud.py:1936-1940), with
both metrics rounded to two decimals. -/
def capacity_record (measure : ℕ → LevelMeasurement) (l : ℕ) : CapacityLevel :=
  ⟨l, pyRound (success_rate (measure l)) 2, pyRound (avg_response_time (measure l)) 2⟩

/-- The level loop of `estimate_concurrent_users` (src/cloud.py:1889-1946)
over the remaining ladder, carrying `max_concurrent`, `successful_levels`,
and (as observational instrumentation) the trace of levels tested so far.
A passing level is recorded as the new maximum and appended, then the
wall-clock budget is checked; a failing level terminates the loop
unrecorded. -/
def run_ladder (measure : ℕ → LevelMeasurement) (test_duration : ℚ) :
    List ℕ → ℕ → List CapacityLevel → List ℕ → ℕ × List CapacityLevel × List ℕ
  | [], maxC, levels, tested => (maxC, levels, tested)
  | l :: rest, maxC, levels, tested =>
    if level_passes (measure l) then
      if (measure l).elapsed > test_duration then
        (l, levels ++ [capacity_record measure l], tested ++ [l])
      else
        run_ladder measure test_duration rest l
          (levels ++ [capacity_record measure l]) (tested ++ [l])
    else (maxC, levels, tested ++ [l])

/-- The trace of levels the loop actually tests: every level up to and
including the first that fails the gate or overruns the budget. -/
def tested_in_run (measure : ℕ → LevelMeasurement) (test_duration : ℚ) :
    List ℕ → List ℕ
  | [] => []
  | l :: rest =>
    if level_passes (measure l) then
      if (measure l).elapsed > test_duration then [l]
      else l :: tested_in_run measure test_duration rest
    else [l]

/-- The fixed concurrency ladder (src/cloud.py:1889). -/
def concurrency_ladder : List ℕ := [5, 10, 20, 30, 50, 75, 100]

/-- `_get_capacity_recommendation` (src/cloud.py:1965-1974). -/
def get_capacity_recommendation (max_concurrent : ℕ) : String :=
  if max_concurrent ≥ 100 then
    "Excellent capacity. Site can handle high traffic loads."
  else if max_concurrent ≥ 50 then
    "Good capacity. Consider CDN and caching optimization for growth."
  else if max_concurrent ≥ 20 then
    "Moderate capacity. Implement caching, CDN, and consider resource upgrades."
  else
    "Limited capacity. Immediate optimization needed: enable caching, CDN, upgrade hosting."

/-- The result dictionary of `estimate_concurrent_users`
(src/cloud.py:1951-1956), plus the tested-levels trace of the loop. -/
structure CapacityResult where
  estimated_max_concurrent_users : ℕ
  estimated_daily_capacity : ℕ
  successful_test_levels : List CapacityLevel
  recommendation : String
  tested_levels : List ℕ
deriving DecidableEq

/-- `estimate_concurrent_users` (src/cloud.py:1878-1963): run the ladder from
`max_concurrent = 0` and empty accumulators, then derive the daily capacity
estimate `max · 24 · 60 · 10` (src/cloud.py:1949) and the recommendation. -/
def estimate_concurrent_users (measure : ℕ → LevelMeasurement)
    (test_duration : ℚ) : CapacityResult :=
  let r := run_ladder measure test_duration concurrency_ladder 0 [] []
  { estimated_max_concurrent_users := r.1
    estimated_daily_capacity := r.1 * 24 * 60 * 10
    successful_test_levels := r.2.1
    recommendation := get_capacity_recommendation r.1
    tested_levels := r.2.2 }

/-- The scenario of the spec: levels other than 20 succeed fully (100
successes, no errors, 300 ms responses), level 20 only reaches an 80 percent
success rate; every level finishes in 10 seconds. -/
def scenario_measure : ℕ → LevelMeasurement := fun l =>
  if l = 20 then ⟨80, 20, [300], 10⟩ else ⟨100, 0, [300], 10⟩

/-! ## CrossLogCorrelator
(src/cloud.py, `_load_access_log_timing`: `normalize_script` lines 1134-1137,
`script_keys` lines 1182-1193, the index build lines 1195-1205, and
`access_match` in `analyze_slow_logs`, lines 1017-1030) -/

/-- Python's `s.split('?')[0]`: everything before the first question mark. -/
def split_query (s : String) : String :=
  String.mk (s.toList.takeWhile (fun c => c ≠ '?'))

/-- `normalize_script` (src/cloud.py:1134-1137). -/
def normalize_script (script : String) : String :=
  if script = "" then "" else split_query script

/-- Python's `os.path.basename`: everything after the last slash. -/
def basename (path : String) : String :=
  String.mk ((path.toList.reverse.takeWhile (fun c => c ≠ '/')).reverse)

/-- Python's `s.lstrip('/')`: drop every leading slash. -/
def lstrip_slashes (s : String) : String :=
  String.mk (s.toList.dropWhile (fun c => c = '/'))

/-- Python's `s.startswith('/')`. -/
def starts_with_slash (s : String) : Bool :=
  match s.toList with
  | [] => false
  | c :: _ => c = '/'

/-- `script_keys` (src/cloud.py:1182-1193): the normalized key variants of a
script path — the cleaned path, its leading-slash-stripped or
leading-slash-added variant, and its basename.  The source collects them in a
`set`; the model keeps a list (possible duplicates are harmless: the index
assigns them all the same summary, and a query retries the same key). -/
def script_keys (script : String) : List String :=
  let clean := normalize_script script
  if clean = "" then []
  else
    [clean,
      if starts_with_slash clean then lstrip_slashes clean else "/" ++ clean,
      basename clean]

/-- The per-script accumulation of the access log (src/cloud.py:1168-1173). -/
structure AccessStats where
  count : ℕ
  total_time : ℚ
  max_time : ℚ
deriving DecidableEq

/-- The per-script summary record placed into the index
(src/cloud.py:1196-1203). -/
structure AccessSummary where
  script : String
  count : ℕ
  avg_time_sec : ℚ
  max_time_sec : ℚ
deriving DecidableEq

/-- Building one summary from the accumulated stats (src/cloud.py:1197-1203). -/
def access_summary (script : String) (st : AccessStats) : AccessSummary :=
  { script := script
    count := st.count
    avg_time_sec := pyRound (if st.count > 0 then st.total_time / (st.count : ℚ) else 0) 3
    max_time_sec := pyRound st.max_time 3 }

/-- Writing one summary under every key variant (src/cloud.py:1204-1205). -/
def write_keys (summary : AccessSummary) (keys : List String)
    (idx : String → Option AccessSummary) : String → Option AccessSummary :=
  keys.foldl (fun idx k => fun q => if q = k then some summary else idx q) idx

/-- The `script_index` build (src/cloud.py:1195-1205): fold the per-script
summaries in dictionary insertion order; on key collision the last write
wins. -/
def build_script_index (items : List (String × AccessStats)) :
    String → Option AccessSummary :=
  items.foldl
    (fun idx item => write_keys (access_summary item.1 item.2) (script_keys item.1) idx)
    (fun _ => none)

/-- `access_match` (src/cloud.py:1017-1030): clean the query path, try its
own key variants against the index, and return the first hit.  The source
iterates a `set` (unspecified order); the model fixes the order
`[clean, slash variant, basename]` — the properties proved below do not
depend on that choice. -/
def access_match (script_path : String) (idx : String → Option AccessSummary) :
    Option AccessSummary :=
  if script_path = "" then none
  else
    let clean := split_query script_path
    let keys := [clean,
      if starts_with_slash clean then lstrip_slashes clean else "/" ++ clean,
      basename clean]
    keys.findSome? idx

/-! ## LineExtractor
(src/cloud.py, `ResourceAnalyzer._extract_script_from_line` lines 1287-1310,
`_extract_request_path` lines 1312-1320, `_extract_access_metrics` lines
1322-1499).  The fixed regular expressions of the source are hand-compiled
into character-list scanners: every repetition in them ranges over a single
character class, so greedy matching is maximal-munch over that class, ordered
alternation is `<|>`, and `re.search` is a leftmost scan over the suffixes of
the line. -/

/-- Python's `\s` class (ASCII). -/
def isPySpace (c : Char) : Bool :=
  c = ' ' || c = '\t' || c = '\n' || c = '\r' || c = '\x0b' || c = '\x0c'

/-- Python's `\w` class (ASCII letters, digits, underscore). -/
def isWordChar (c : Char) : Bool := c.isAlphanum || c = '_'

/-- Strip a character class from both ends, as Python's `str.strip`. -/
def stripBoth (p : Char → Bool) (l : List Char) : List Char :=
  ((l.dropWhile p).reverse.dropWhile p).reverse

/-- Case-insensitive literal: consume `pat` from the head of `l`. -/
def ciStrip : List Char → List Char → Option (List Char)
  | [], l => some l
  | _ :: _, [] => none
  | p :: ps, c :: cs => if p.toLower = c.toLower then ciStrip ps cs else none

/-- `re.search`: try the head-anchored matcher at every suffix, leftmost
first. -/
def searchPos (f : List Char → Option β) : List Char → Option β
  | [] => f []
  | c :: cs =>
    match f (c :: cs) with
    | some r => some r
    | none => searchPos f cs

/-- The numeric value of a digit run. -/
def digitsVal (l : List Char) : ℕ :=
  l.foldl (fun n c => n * 10 + (c.toNat - '0'.toNat)) 0

/-- Greedy match of `\d+(?:\.\d+)?` at the head; the value and the rest. -/
def parseNumber (l : List Char) : Option (ℚ × List Char) :=
  let ds := l.takeWhile (fun c => c.isDigit)
  if ds.isEmpty then none
  else
    let rest := l.dropWhile (fun c => c.isDigit)
    match rest with
    | '.' :: rest2 =>
      let fs := rest2.takeWhile (fun c => c.isDigit)
      if fs.isEmpty then some ((digitsVal ds : ℚ), rest)
      else some ((digitsVal ds : ℚ) + (digitsVal fs : ℚ) / (10 ^ fs.length : ℚ),
        rest2.dropWhile (fun c => c.isDigit))
    | _ => some ((digitsVal ds : ℚ), rest)

/-- Fullmatch of `\d+(?:\.\d+)?`: the whole token is one number. -/
def parseFullNum (l : List Char) : Option ℚ :=
  match parseNumber l with
  | some (v, []) => some v
  | _ => none

/-- Fullmatch of `-?\d+(?:\.\d+)?`. -/
def parseSignedNum (l : List Char) : Option ℚ :=
  match l with
  | '-' :: rest => (parseFullNum rest).map (fun q => -q)
  | _ => parseFullNum l

/-- Python's `float()` on the tokens this parser feeds it: optional sign,
digits with an optional fractional part (covering "5", "5.", ".5", "5.5");
exponent forms do not occur in these logs and are not modelled. -/
def pyFloat (t : List Char) : Option ℚ :=
  let t := stripBoth isPySpace t
  let core := fun (l : List Char) =>
    let ds := l.takeWhile (fun c => c.isDigit)
    let rest := l.dropWhile (fun c => c.isDigit)
    match rest with
    | [] => if ds.isEmpty then none else some ((digitsVal ds : ℚ))
    | '.' :: rest2 =>
      let fs := rest2.takeWhile (fun c => c.isDigit)
      if rest2.dropWhile (fun c => c.isDigit) ≠ [] then none
      else if ds.isEmpty ∧ fs.isEmpty then none
      else some ((digitsVal ds : ℚ) + (digitsVal fs : ℚ) / (10 ^ fs.length : ℚ))
    | _ => none
  match t with
  | '-' :: rest => (core rest).map (fun q => -q)
  | '+' :: rest => core rest
  | _ => core t

/-- `script=`/`script_filename=` capture:
`(?:script_filename|script)\s*=\s*(\S+)`, after the keyword. -/
def scriptTokenTail (l : List Char) : Option (List Char) :=
  match l.dropWhile isPySpace with
  | '=' :: rest =>
    let rest := rest.dropWhile isPySpace
    let cap := rest.takeWhile (fun c => !isPySpace c)
    if cap.isEmpty then none else some cap
  | _ => none

/-- The `script=` matcher anchored at the head (src/cloud.py:1288):
`script_filename` is tried before `script`, as in the alternation. -/
def matchScriptToken (l : List Char) : Option (List Char) :=
  (ciStrip "script_filename".toList l >>= scriptTokenTail) <|>
    (ciStrip "script".toList l >>= scriptTokenTail)

/-- The HTTP methods of the quoted-request pattern (src/cloud.py:1297), in
alternation order. -/
def httpMethods : List (List Char) :=
  ["GET".toList, "POST".toList, "HEAD".toList, "PUT".toList, "DELETE".toList,
    "OPTIONS".toList, "PATCH".toList]

/-- After a method: `\s+([^" ]+)`. -/
def methodTail (l : List Char) : Option (List Char) :=
  match l with
  | c :: rest =>
    if isPySpace c then
      let rest := rest.dropWhile isPySpace
      let cap := rest.takeWhile (fun c => c ≠ '"' && c ≠ ' ')
      if cap.isEmpty then none else some cap
    else none
  | [] => none

/-- Try each method alternative in order; on a failed continuation the
alternation falls through to the next method. -/
def tryMethods : List (List Char) → List Char → Option (List Char)
  | [], _ => none
  | m :: ms, l =>
    match ciStrip m l with
    | some rest => methodTail rest <|> tryMethods ms l
    | none => tryMethods ms l

/-- The quoted-request matcher anchored at the head:
`"(?:GET|POST|HEAD|PUT|DELETE|OPTIONS|PATCH)\s+([^" ]+)`. -/
def matchRequestAt (l : List Char) : Option (List Char) :=
  match l with
  | '"' :: rest => tryMethods httpMethods rest
  | _ => none

/-- `_extract_request_path` (src/cloud.py:1312-1320). -/
def extract_request_path (l : List Char) : Option (List Char) :=
  searchPos matchRequestAt l

/-- Substring test for `".php" in token`. -/
def containsDotPhp (l : List Char) : Bool :=
  l.tails.any (fun t => ".php".toList.isPrefixOf t)

/-- Python's `split('?')[0]` on a single token. -/
def takeBeforeQm (l : List Char) : List Char := l.takeWhile (fun c => c ≠ '?')

/-- The index of the last `".php"` occurrence in a run. -/
def lastPhpIdx : List Char → Option ℕ
  | [] => none
  | c :: cs =>
    match lastPhpIdx cs with
    | some k => some (k + 1)
    | none => if ".php".toList.isPrefixOf (c :: cs) then some 0 else none

/-- Head-anchored match of `\S+\.php(?:\?\S+)?` (src/cloud.py:1306):
the greedy `\S+` reaches the last `".php"` of the non-space run (at least one
character must precede it), and the optional query part consumes `?` plus a
further non-space run.  Returns the match text and the rest of the line. -/
def matchPhpAt (l : List Char) : Option (List Char × List Char) :=
  let run := l.takeWhile (fun c => !isPySpace c)
  match lastPhpIdx run with
  | none => none
  | some k =>
    if k = 0 then none
    else
      let core := run.take (k + 4)
      let after := l.drop (k + 4)
      match after with
      | '?' :: rest2 =>
        let qrun := rest2.takeWhile (fun c => !isPySpace c)
        if qrun.isEmpty then some (core, after)
        else some (core ++ '?' :: qrun, rest2.drop qrun.length)
      | _ => some (core, after)

/-- `re.findall` for the `.php` path pattern: leftmost, non-overlapping.
The fuel is the line length; every step consumes at least one character. -/
def phpFindall : ℕ → List Char → List (List Char)
  | 0, _ => []
  | _, [] => []
  | fuel + 1, c :: cs =>
    match matchPhpAt (c :: cs) with
    | some (m, rest) => m :: phpFindall fuel rest
    | none => phpFindall fuel cs

/-- `_extract_script_from_line` (src/cloud.py:1287-1310): the labeled
`script=` token, else the quoted request path when it mentions `.php` (the
source consults the same quoted-request pattern twice in a row; the retry
returns the identical match and is folded into one branch), else the last
`.php`-path-like token of the line. -/
def extract_script_from_line (l : List Char) : Option (List Char) :=
  match searchPos matchScriptToken l with
  | some cap =>
    some (stripBoth (fun c => c.toNat = 39) (stripBoth (fun c => c = '"')
      (stripBoth isPySpace cap)))
  | none =>
    match extract_request_path l with
    | some path =>
      if containsDotPhp path then some (takeBeforeQm path)
      else
        match (phpFindall l.length l).getLast? with
        | some m => some (takeBeforeQm m)
        | none => none
    | none =>
      match (phpFindall l.length l).getLast? with
      | some m => some (takeBeforeQm m)
      | none => none

/-- The time-unit alternation of the labeled pattern (src/cloud.py:1379), in
order. -/
def timeUnitsLabeled : List (List Char) :=
  ["ms".toList, "msec".toList, "s".toList, "sec".toList, "seconds".toList]

/-- The time-unit alternation of the bare pattern (src/cloud.py:1408). -/
def timeUnitsBare : List (List Char) :=
  ["ms".toList, "msec".toList, "s".toList, "sec".toList]

/-- The memory-unit alternation (src/cloud.py:1390, 1416, 1458), in order. -/
def memUnits : List (List Char) :=
  ["kb".toList, "k".toList, "mb".toList, "m".toList, "gb".toList, "g".toList,
    "bytes".toList, "b".toList]

/-- The first unit alternative that is a case-insensitive prefix of the rest
of the line (the captured text lowercases to the alternative itself). -/
def firstCiUnit : List (List Char) → List Char → Option (List Char)
  | [], _ => none
  | u :: us, l => if (ciStrip u l).isSome then some u else firstCiUnit us l

/-- After a labeled keyword: `[:=]\s*(\d+(?:\.\d+)?)\s*(unit)?`. -/
def afterKwNum (units : List (List Char)) (l : List Char) :
    Option (ℚ × Option (List Char)) :=
  match l with
  | c :: rest =>
    if c = ':' || c = '=' then
      match parseNumber (rest.dropWhile isPySpace) with
      | some (v, rest2) => some (v, firstCiUnit units (rest2.dropWhile isPySpace))
      | none => none
    else none
  | [] => none

/-- `_?time` with backtracking on the optional underscore, then the numeric
tail. -/
def timeKwTail (r : List Char) : Option (ℚ × Option (List Char)) :=
  (ciStrip "_".toList r >>= fun r2 =>
    ciStrip "time".toList r2 >>= afterKwNum timeUnitsLabeled) <|>
    (ciStrip "time".toList r >>= afterKwNum timeUnitsLabeled)

/-- Head-anchored matcher of the labeled time pattern (src/cloud.py:1378-1382):
`(?:req(?:uest)?_?time|duration|elapsed|time)[:=]\s*(\d+(?:\.\d+)?)\s*(unit)?`
with the alternation tried in order and backtracking on the optionals. -/
def matchTimeKwAt (l : List Char) : Option (ℚ × Option (List Char)) :=
  (ciStrip "req".toList l >>= fun r =>
    (ciStrip "uest".toList r >>= timeKwTail) <|> timeKwTail r) <|>
    (ciStrip "duration".toList l >>= afterKwNum timeUnitsLabeled) <|>
    (ciStrip "elapsed".toList l >>= afterKwNum timeUnitsLabeled) <|>
    (ciStrip "time".toList l >>= afterKwNum timeUnitsLabeled)

/-- Head-anchored matcher of the labeled memory pattern (src/cloud.py:1389-1393):
`(?:mem(?:ory)?|rss)[:=]\s*(\d+(?:\.\d+)?)\s*(unit)?`. -/
def matchMemKwAt (l : List Char) : Option (ℚ × Option (List Char)) :=
  (ciStrip "mem".toList l >>= fun r =>
    (ciStrip "ory".toList r >>= afterKwNum memUnits) <|> afterKwNum memUnits r) <|>
    (ciStrip "rss".toList l >>= afterKwNum memUnits)

/-- Head-anchored matcher of the CPU pattern (src/cloud.py:1400):
`(?:cpu|cpu_usage)[:=]\s*(\d+(?:\.\d+)?)\s*%?`. -/
def matchCpuAt (l : List Char) : Option ℚ :=
  let tail := fun (r : List Char) =>
    match r with
    | c :: rest =>
      if c = ':' || c = '=' then (parseNumber (rest.dropWhile isPySpace)).map (fun p => p.1)
      else none
    | [] => none
  (ciStrip "cpu".toList l >>= tail) <|> (ciStrip "cpu_usage".toList l >>= tail)

/-- `\b` after a unit: the next character is not a word character. -/
def wordBoundaryOk : List Char → Bool
  | [] => true
  | c :: _ => !isWordChar c

/-- The first unit alternative that matches and is followed by a word
boundary; on a failed boundary the alternation continues (which is how
`msec` wins over its prefix `ms`). -/
def firstCiUnitWb : List (List Char) → List Char → Option (List Char)
  | [], _ => none
  | u :: us, l =>
    match ciStrip u l with
    | some rest => if wordBoundaryOk rest then some u else firstCiUnitWb us l
    | none => firstCiUnitWb us l

/-- Head-anchored matcher of `(\d+(?:\.\d+)?)\s*(unit)\b`
(src/cloud.py:1408, 1416). -/
def matchNumUnitAt (units : List (List Char)) (l : List Char) :
    Option (ℚ × List Char) :=
  match parseNumber l with
  | some (v, rest) =>
    match firstCiUnitWb units (rest.dropWhile isPySpace) with
    | some u => some (v, u)
    | none => none
  | none => none

/-- Head-anchored matcher of `(\d+(?:\.\d+)?)\s*%` (src/cloud.py:1424). -/
def matchNumPercentAt (l : List Char) : Option ℚ :=
  match parseNumber l with
  | some (v, rest) =>
    match rest.dropWhile isPySpace with
    | '%' :: _ => some v
    | _ => none
  | none => none

/-- Python's `line.split(sep)` on a single character. -/
def splitOnChar (sep : Char) : List Char → List (List Char)
  | [] => [[]]
  | c :: cs =>
    match splitOnChar sep cs with
    | [] => [[c]]
    | h :: t => if c = sep then [] :: h :: t else (c :: h) :: t

/-- Python's `str.split()` with no argument: split on whitespace runs,
dropping empty tokens. -/
def splitWsGo : List Char → List Char → List (List Char)
  | [], cur => if cur.isEmpty then [] else [cur.reverse]
  | c :: rest, cur =>
    if isPySpace c then
      if cur.isEmpty then splitWsGo rest []
      else cur.reverse :: splitWsGo rest []
    else splitWsGo rest (c :: cur)

/-- See `splitWsGo`. -/
def splitWs (l : List Char) : List (List Char) := splitWsGo l []

/-- `re.fullmatch(r'\d{3}', token)`. -/
def isThreeDigits (t : List Char) : Bool :=
  t.length = 3 && t.all (fun c => c.isDigit)

/-- `token.endswith('%')`. -/
def endsPercent (t : List Char) : Bool :=
  match t.getLast? with
  | some c => c = '%'
  | none => false

/-- `token.strip('%')` (both ends). -/
def stripPercent (t : List Char) : List Char := stripBoth (fun c => c = '%') t

/-- `token.rstrip('%')` (right end only). -/
def rstripPercent (t : List Char) : List Char :=
  (t.reverse.dropWhile (fun c => c = '%')).reverse

/-- The first percent token whose stripped text `float()` accepts
(src/cloud.py:1360-1365). -/
def firstPercentFloat : List (List Char) → Option ℚ
  | [] => none
  | t :: ts =>
    match pyFloat (stripPercent t) with
    | some v => some v
    | none => firstPercentFloat ts

/-- The record `_extract_access_metrics` fills in (src/cloud.py:1323-1328). -/
structure AccessMetrics where
  request_time_sec : Option ℚ
  memory_mb : Option ℚ
  cpu_percent : Option ℚ
  script : Option String
deriving DecidableEq

/-- The quoted-parts block of `_extract_access_metrics`
(src/cloud.py:1330-1376): with at least two quoted segments, read the request
path from the first quoted segment (or the trailing quoted path), then
classify the tokens between the quotes — a leading 3-digit status code is
dropped, percent-suffixed tokens feed the CPU, and of the bare numerics the
smallest in `(0, 60]` is the request time and the largest, if above 100, is
the memory. -/
def quotedPartsBlock (l : List Char) (m0 : AccessMetrics) : AccessMetrics :=
  let parts := splitOnChar '"' l
  if parts.length ≥ 4 then
    let request_part := stripBoth isPySpace (parts.getD 1 [])
    let after_request := parts.getD 2 []
    let trailing_path := stripBoth isPySpace (parts.getD 3 [])
    let m := m0
    let m :=
      if !request_part.isEmpty then
        let req_tokens := splitWs request_part
        if req_tokens.length ≥ 2 then
          let req_path := req_tokens.getD 1 []
          if containsDotPhp req_path then
            { m with script := some (String.mk (takeBeforeQm req_path)) }
          else m
        else m
      else m
    let m :=
      if m.script = none ∧ ¬ trailing_path.isEmpty ∧ containsDotPhp trailing_path then
        { m with script := some (String.mk (takeBeforeQm trailing_path)) }
      else m
    let tokens := (splitWs after_request).filter
      (fun t => !t.isEmpty && !(t = ['-'] : Bool))
    let tokens :=
      if isThreeDigits (tokens.headD []) then tokens.tail else tokens
    let percent_tokens := tokens.filter endsPercent
    let numeric_tokens := tokens.filterMap
      (fun t => if endsPercent t then none else parseFullNum t)
    let m :=
      if ¬ percent_tokens.isEmpty ∧ m.cpu_percent = none then
        { m with cpu_percent := firstPercentFloat percent_tokens }
      else m
    if ¬ numeric_tokens.isEmpty then
      let m :=
        if m.request_time_sec = none then
          let candidates := numeric_tokens.filter
            (fun v => decide (0 < v) && decide (v ≤ 60))
          match candidates.min? with
          | some mn => { m with request_time_sec := some mn }
          | none => m
        else m
      if m.memory_mb = none then
        match numeric_tokens.max? with
        | some mx =>
          if mx > 100 then { m with memory_mb := normalize_memory_mb mx none } else m
        | none => m
      else m
    else m
  else m0

/-- The unit alternation of the fallback fullmatch (src/cloud.py:1458). -/
def memTimeUnits : List (List Char) :=
  ["ms".toList, "msec".toList, "s".toList, "sec".toList] ++ memUnits

/-- Fullmatch of `(-?\d+(?:\.\d+)?)(unit)` (src/cloud.py:1457-1461): a
signed number whose remainder is exactly one unit token (case-insensitive). -/
def unitFullmatch (t : List Char) : Option (ℚ × List Char) :=
  let core := fun (l : List Char) =>
    match parseNumber l with
    | some (v, rest) =>
      match memTimeUnits.findSome?
        (fun u => if (ciStrip u rest) = some [] then some u else none) with
      | some u => some (v, u)
      | none => none
    | none => none
  match t with
  | '-' :: rest => (core rest).map (fun p => (-p.1, p.2))
  | _ => core t

/-- Remove the first `.php`-containing token (src/cloud.py:1440-1444),
returning it and the remaining tokens. -/
def popPhpToken : List (List Char) → Option (List Char × List (List Char))
  | [] => none
  | t :: ts =>
    if containsDotPhp t then some (t, ts)
    else
      match popPhpToken ts with
      | some (p, rest) => some (p, t :: rest)
      | none => none

/-- The per-token classification loop of the fallback block
(src/cloud.py:1446-1474), carrying the metrics and the bare numeric values in
order. -/
def fallbackLoop : List (List Char) → AccessMetrics → List ℚ →
    AccessMetrics × List ℚ
  | [], m, acc => (m, acc)
  | t :: ts, m, acc =>
    let cleaned := stripBoth (fun c => c = ',') (stripBoth isPySpace t)
    if endsPercent cleaned then
      let m :=
        if m.cpu_percent = none then
          match pyFloat (rstripPercent cleaned) with
          | some v => { m with cpu_percent := some v }
          | none => m
        else m
      fallbackLoop ts m acc
    else
      match unitFullmatch cleaned with
      | some (v, u) =>
        let m :=
          if u ∈ timeUnitsBare then
            if m.request_time_sec = none then
              { m with request_time_sec := normalize_time_seconds v (some (String.mk u)) }
            else m
          else
            if m.memory_mb = none then
              { m with memory_mb := normalize_memory_mb v (some (String.mk u)) }
            else m
        fallbackLoop ts m acc
      | none =>
        match parseSignedNum cleaned with
        | some v => fallbackLoop ts m (acc ++ [v])
        | none => fallbackLoop ts m acc

/-- The first-fit classification of the bare numerics
(src/cloud.py:1477-1483): the first value in `(0, 60]` is the time candidate;
the first other value in `[0, 100]` is the CPU candidate. -/
def pickCandidates : List ℚ → Option ℚ → Option ℚ → Option ℚ × Option ℚ
  | [], ct, cc => (ct, cc)
  | v :: vs, ct, cc =>
    if ct = none ∧ 0 < v ∧ v ≤ 60 then pickCandidates vs (some v) cc
    else if cc = none ∧ 0 ≤ v ∧ v ≤ 100 then pickCandidates vs ct (some v)
    else pickCandidates vs ct cc

/-- The structural fallback of `_extract_access_metrics`
(src/cloud.py:1431-1494), entered when time or memory is still missing:
tokenize everything after the last quote, drop a leading status code, claim a
first `.php` token as the script when none is known, classify unit-suffixed
and percent-suffixed tokens, then fill the still-missing fields from the bare
numerics (the time candidate through the normalizer with no unit, the largest
value as memory through the byte-magnitude heuristic, a remaining value in
`[0,100]` as CPU). -/
def fallbackBlock (l : List Char) (m0 : AccessMetrics) : AccessMetrics :=
  let after_request := if l.contains '"' then (splitOnChar '"' l).getLastD [] else l
  let tokens := splitWs after_request
  let tokens := if isThreeDigits (tokens.headD []) then tokens.tail else tokens
  let pm :=
    if m0.script = none then
      match popPhpToken tokens with
      | some (p, rest) =>
        (rest, { m0 with script := some (String.mk (takeBeforeQm p)) })
      | none => (tokens, m0)
    else (tokens, m0)
  let res := fallbackLoop pm.1 pm.2 []
  let m := res.1
  let numeric_values := res.2
  if ¬ numeric_values.isEmpty then
    let cands := pickCandidates numeric_values none none
    let m :=
      match cands.1 with
      | some ct =>
        if m.request_time_sec = none then
          { m with request_time_sec := normalize_time_seconds ct none }
        else m
      | none => m
    let m :=
      match numeric_values.max? with
      | some cm =>
        if m.memory_mb = none then { m with memory_mb := normalize_memory_mb cm none }
        else m
      | none => m
    match cands.2 with
    | some cc =>
      if m.cpu_percent = none then { m with cpu_percent := some cc } else m
    | none => m
  else m

/-- `_extract_access_metrics` before its final no-signal gate
(src/cloud.py:1322-1494), in source order: the script extraction, the
quoted-parts block, the three labeled patterns (whose hits overwrite
unconditionally), the three bare-token patterns (tried only for still-missing
fields), and the structural fallback. -/
def extract_access_metrics_raw (line : String) : AccessMetrics :=
  let l := line.toList
  let m0 : AccessMetrics :=
    ⟨none, none, none, (extract_script_from_line l).map (fun cs => String.mk cs)⟩
  let m1 : AccessMetrics := quotedPartsBlock l m0
  let m2 : AccessMetrics :=
    match searchPos matchTimeKwAt l with
    | some (v, u) =>
      { m1 with request_time_sec :=
          normalize_time_seconds v (u.map (fun cs => String.mk cs)) }
    | none => m1
  let m3 : AccessMetrics :=
    match searchPos matchMemKwAt l with
    | some (v, u) =>
      { m2 with memory_mb := normalize_memory_mb v (u.map (fun cs => String.mk cs)) }
    | none => m2
  let m4 : AccessMetrics :=
    match searchPos matchCpuAt l with
    | some v => { m3 with cpu_percent := some v }
    | none => m3
  let m5 : AccessMetrics :=
    if m4.request_time_sec = none then
      match searchPos (matchNumUnitAt timeUnitsBare) l with
      | some (v, u) =>
        { m4 with request_time_sec := normalize_time_seconds v (some (String.mk u)) }
      | none => m4
    else m4
  let m6 : AccessMetrics :=
    if m5.memory_mb = none then
      match searchPos (matchNumUnitAt memUnits) l with
      | some (v, u) =>
        { m5 with memory_mb := normalize_memory_mb v (some (String.mk u)) }
      | none => m5
    else m5
  let m7 : AccessMetrics :=
    if m6.cpu_percent = none then
      match searchPos matchNumPercentAt l with
      | some v => { m6 with cpu_percent := some v }
      | none => m6
    else m6
  if m7.request_time_sec.isNone || m7.memory_mb.isNone then fallbackBlock l m7
  else m7

/-- `_extract_access_metrics` (src/cloud.py:1322-1499): the no-signal gate at
lines 1496-1497 returns the empty result (modelled `none`) exactly when the
request time, memory and CPU fields are all absent — regardless of the
extracted script. -/
def extract_access_metrics (line : String) : Option AccessMetrics :=
  let m := extract_access_metrics_raw line
  if m.request_time_sec = none ∧ m.memory_mb = none ∧ m.cpu_percent = none then none
  else some m

end Cloud

-- ===== end of definitions =====

open Cloud

/-- C4 counterexample: the value 5000 is a positive memory value under 1024²,
yet the unitless normalizer divides it by 1024 (kilobyte heuristic) instead of
returning it unchanged, so the claimed round-trip stability fails at 5000. -/
theorem C4_counterexample :
    (0 : ℚ) < 5000 ∧ (5000 : ℚ) < 1024 * 1024 ∧
      normalize_memory_mb 5000 none ≠ some 5000 := by
  refine ⟨by norm_num, by norm_num, ?_⟩
  simp only [normalize_memory_mb, memory_magnitude_heuristic]
  norm_num

/-- C4 (amended): the unit normalizers are round-trip stable on already
canonical inputs below the heuristic thresholds: every time value `v` with
`0 < v` and `v < 1000` normalizes to itself with no unit, and every memory
value `v` with `0 < v` and `v < 5000` normalizes to itself with no unit
(values in `[5000, 1024²)` are instead treated as kilobytes). -/
theorem C4_round_trip_stable :
    (∀ v : ℚ, 0 < v → v < 1000 → normalize_time_seconds v none = some v) ∧
      (∀ v : ℚ, 0 < v → v < 5000 → normalize_memory_mb v none = some v) := by
  constructor
  · intro v hpos hlt
    simp only [normalize_time_seconds]
    rw [if_neg (by linarith), if_neg (by linarith)]
  · intro v hpos hlt
    simp only [normalize_memory_mb, memory_magnitude_heuristic]
    rw [if_neg (by linarith), if_neg (by linarith), if_neg (by linarith)]

/-- Witness for C4 (amended) at the concrete inputs 999 and 4999. -/
theorem C4_round_trip_stable_witness :
    normalize_time_seconds 999 none = some 999 ∧
      normalize_memory_mb 4999 none = some 4999 :=
  ⟨C4_round_trip_stable.1 999 (by norm_num) (by norm_num),
    C4_round_trip_stable.2 4999 (by norm_num) (by norm_num)⟩

/-- C9: point postconditions of the unit normalizers:
`normalize_time(5, "s") = 5`, `normalize_time(5000, None) = 5` by the
millisecond magnitude heuristic, `normalize_time(0, "s") = None`,
`normalize_memory(2·1048576, None) = 2` by the byte magnitude heuristic,
`normalize_memory(2048, "kb") = 2`, and every value `≤ 0` yields `None`
for both functions, whatever the unit. -/
theorem C9_normalizer_postconditions :
    normalize_time_seconds 5 (some "s") = some 5 ∧
      normalize_time_seconds 5000 none = some 5 ∧
      normalize_time_seconds 0 (some "s") = none ∧
      normalize_memory_mb (1048576 * 2) none = some 2 ∧
      normalize_memory_mb 2048 (some "kb") = some 2 ∧
      (∀ (v : ℚ) (u : Option String), v ≤ 0 →
        normalize_time_seconds v u = none ∧ normalize_memory_mb v u = none) := by
  refine ⟨by decide, ?_, by decide, ?_, by decide, ?_⟩
  · simp only [normalize_time_seconds]
    norm_num
  · simp only [normalize_memory_mb, memory_magnitude_heuristic]
    norm_num
  · intro v u hv
    exact ⟨by simp [normalize_time_seconds, hv], by simp [normalize_memory_mb, hv]⟩

/-- Witness for C9 at the concrete non-positive input `-3` with no unit. -/
theorem C9_normalizer_postconditions_witness :
    normalize_time_seconds (-3) none = none ∧ normalize_memory_mb (-3) none = none :=
  C9_normalizer_postconditions.2.2.2.2.2 (-3) none (by norm_num)

/-- C2: the percentile function returns `none` on the empty list, the unique
element on a singleton, and otherwise sorts ascending and linearly
interpolates between the floor- and ceiling-index values at fractional rank
`r = (p/100)·(n-1)`; concretely `percentile [10,20,30,40,50] 50 = 30`,
`percentile [1] 99 = 1`, `percentile [] 50 = none`, and
`percentile [1,2,3,4,5] 95 = 4.8`. -/
theorem C2_percentile :
    (∀ p : ℚ, percentile [] p = none) ∧
      (∀ x p : ℚ, percentile [x] p = some x) ∧
      (∀ (values : List ℚ) (p : ℚ), 0 ≤ p → p ≤ 100 →
        percentile values p = percentileSpecFormula values p) ∧
      percentile [10, 20, 30, 40, 50] 50 = some 30 ∧
      percentile [1] 99 = some 1 ∧
      percentile [1, 2, 3, 4, 5] 95 = some (24 / 5) := by
  refine ⟨fun p => rfl, fun x p => rfl, ?_, by decide, by decide, by decide⟩
  intro values p hp0 hp100
  simp only [percentile, percentileSpecFormula]
  by_cases hemp : values.isEmpty
  · simp [hemp]
  · simp only [hemp, if_false]
    set l := values.insertionSort (· ≤ ·) with hl
    by_cases hone : l.length = 1
    · simp [hone]
    · simp only [hone, if_false]
      have hlv : l.length = values.length := List.length_insertionSort _ _
      have hvne : values ≠ [] := by simpa [List.isEmpty_iff] using hemp
      have hvpos : 0 < values.length := List.length_pos.mpr hvne
      have hlen : 2 ≤ l.length := by omega
      set r : ℚ := (p / 100) * ((l.length : ℚ) - 1) with hr
      have hn1 : (1 : ℚ) ≤ (l.length : ℚ) - 1 := by
        have : (2 : ℚ) ≤ (l.length : ℚ) := by exact_mod_cast hlen
        linarith
      have hr0 : 0 ≤ r := by
        apply mul_nonneg (div_nonneg hp0 (by norm_num))
        linarith
      have hrtop : r ≤ (l.length : ℚ) - 1 := by
        rw [hr]
        calc (p / 100) * ((l.length : ℚ) - 1) ≤ 1 * ((l.length : ℚ) - 1) := by
              apply mul_le_mul_of_nonneg_right _ (by linarith)
              linarith
          _ = (l.length : ℚ) - 1 := one_mul _
      have htrunc : pyTrunc r = ⌊r⌋ := by
        simp only [pyTrunc, if_neg (not_lt.mpr hr0)]
      rw [htrunc]
      have hfract : r - (⌊r⌋ : ℚ) = Int.fract r := rfl
      rw [hfract]
      by_cases hint : Int.fract r = 0
      · rw [hint]
        ring_nf
      · have hceil : ⌈r⌉ = ⌊r⌋ + 1 := by
          have h1 : ⌈r⌉ ≤ ⌊r⌋ + 1 := by
            rw [Int.ceil_le]
            push_cast
            have := (Int.lt_floor_add_one r).le
            exact_mod_cast this
          have h2 : ⌊r⌋ < ⌈r⌉ := by
            have hflt : (⌊r⌋ : ℚ) < r := by
              have := Int.fract_nonneg r
              have hne0 : 0 < Int.fract r := lt_of_le_of_ne this (Ne.symm hint)
              have : 0 < r - (⌊r⌋ : ℚ) := hne0
              linarith
            have hrc : r ≤ (⌈r⌉ : ℚ) := Int.le_ceil r
            exact_mod_cast hflt.trans_le hrc
          omega
        rw [hceil]
        have hmin : min (⌊r⌋ + 1) ((l.length : ℤ) - 1) = ⌊r⌋ + 1 := by
          apply min_eq_left
          have hflt : (⌊r⌋ : ℚ) < (l.length : ℚ) - 1 := by
            have h1 : (⌊r⌋ : ℚ) < r := by
              have := Int.fract_nonneg r
              have hne0 : 0 < Int.fract r := lt_of_le_of_ne this (Ne.symm hint)
              have : 0 < r - (⌊r⌋ : ℚ) := hne0
              linarith
            linarith
          have : ⌊r⌋ < (l.length : ℤ) - 1 := by exact_mod_cast hflt
          omega
        rw [hmin]

/-- Witness for C2 at the concrete unsorted sample list `[3,1,2]` and `p = 50`. -/
theorem C2_percentile_witness :
    percentile [3, 1, 2] 50 = percentileSpecFormula [3, 1, 2] 50 :=
  C2_percentile.2.2.1 [3, 1, 2] 50 (by norm_num) (by norm_num)

/-- C8: after folding any sequence of entries into the aggregator starting
from the empty state, every script's statistics satisfy
`timed_count ≤ count`. -/
theorem C8_count_ge_timed_count (cutoff : ℤ) (entries : List SlowEntry)
    (script : String) :
    ((fold_entries cutoff entries).stats script).timed_count ≤
      ((fold_entries cutoff entries).stats script).count := by
  suffices h : ∀ (st : SlowLogState),
      (∀ s, (st.stats s).timed_count ≤ (st.stats s).count) →
      ∀ s, ((entries.foldl (record_entry cutoff) st).stats s).timed_count ≤
        ((entries.foldl (record_entry cutoff) st).stats s).count by
    exact h SlowLogState.init (fun _ => le_refl _) script
  induction entries with
  | nil => intro st hst s; exact hst s
  | cons e rest ih =>
    intro st hst s
    refine ih (record_entry cutoff st e) ?_ s
    intro s'
    unfold record_entry
    rcases e.script with _ | sc
    · exact hst s'
    · simp only
      split
      · exact hst s'
      · split
        · exact hst s'
        · simp only
          by_cases hsc : s' = sc
          · have hb := hst sc
            rcases e.duration with _ | d <;> simp [hsc] <;> omega
          · simp only [if_neg hsc]
            exact hst s'


/-- How `record_entry` changes the recorded script's own statistics when the
entry is not filtered out: `count` always increments, and a parsed duration
additionally increments `timed_count`, accumulates `total_time` and updates
`max_time` (src/cloud.py:873-879). -/
theorem record_entry_stats_self (cutoff : ℤ) (st : SlowLogState) (e : SlowEntry)
    (script : String) (hs : e.script = some script) (hne : script ≠ "")
    (hd : date_before_cutoff cutoff e.date = false) :
    (record_entry cutoff st e).stats script =
      (match e.duration with
      | some d =>
          ⟨(st.stats script).count + 1, (st.stats script).total_time + d,
            max (st.stats script).max_time d, (st.stats script).timed_count + 1⟩
      | none => { st.stats script with count := (st.stats script).count + 1 }) := by
  unfold record_entry
  rw [hs]
  simp only [if_neg hne, hd, Bool.false_eq_true, if_false]
  rcases e.duration with _ | d <;> simp

/-- C1: folding two `cron.php` entries with durations 2.0s and 4.0s plus one
`cron.php` entry with no parsable duration yields `ScriptStats` with
`count = 3`, `timed_count = 2`, `total_time = 6`, `max_time = 4`, and the
summary row computed on read carries the average `6/2 = 3` (the entries have
no dates, so no cutoff filters them). -/
theorem C1_slow_log_scenario (cutoff : ℤ) :
    (fold_entries cutoff
        [⟨some "cron.php", none, some 2, []⟩,
          ⟨some "cron.php", none, some 4, []⟩,
          ⟨some "cron.php", none, none, []⟩]).stats "cron.php" =
      ⟨3, 6, 4, 2⟩ ∧
      slow_script_row "cron.php" ⟨3, 6, 4, 2⟩ =
        ⟨"cron.php", 3, some 3, some 4, some 6, 2⟩ := by
  constructor
  · simp only [fold_entries, List.foldl]
    rw [record_entry_stats_self cutoff _ ⟨some "cron.php", none, none, []⟩
        "cron.php" rfl (by decide) rfl]
    rw [record_entry_stats_self cutoff _ ⟨some "cron.php", none, some 4, []⟩
        "cron.php" rfl (by decide) rfl]
    rw [record_entry_stats_self cutoff _ ⟨some "cron.php", none, some 2, []⟩
        "cron.php" rfl (by decide) rfl]
    simp only [SlowLogState.init, SlowStats.init, SlowStats.mk.injEq]
    refine ⟨by norm_num, by norm_num, ?_, by norm_num⟩
    rw [max_eq_right (by norm_num : (0:ℚ) ≤ 2), max_eq_right (by norm_num : (2:ℚ) ≤ 4)]
  · decide

/-- C7: the final ranking sorts rows by the key
`(total_time if any timed samples else 0, count)` in descending
lexicographic order; the underlying order is total, the sort is a stable
permutation of its input, and among rows with equal effective total time the
row with the higher count ranks first. -/
theorem C7_ranking_sort :
    (∀ rows : List SlowScriptRow, (sort_slow_scripts rows).Perm rows) ∧
      (∀ rows : List SlowScriptRow, (sort_slow_scripts rows).Sorted row_rank_ge) ∧
      (∀ a b : SlowScriptRow, row_rank_ge a b ∨ row_rank_ge b a) ∧
      (∀ (rows : List SlowScriptRow) (a b : SlowScriptRow),
        List.Sublist [a, b] (sort_slow_scripts rows) →
        a.total_time.getD 0 = b.total_time.getD 0 → b.count ≤ a.count) ∧
      (∀ (rows : List SlowScriptRow) (a b : SlowScriptRow), row_rank_ge a b →
        List.Sublist [a, b] rows → List.Sublist [a, b] (sort_slow_scripts rows)) := by
  refine ⟨fun rows => List.perm_insertionSort row_rank_ge rows,
    fun rows => List.sorted_insertionSort row_rank_ge rows,
    fun a b => (IsTotal.total a b : _), ?_, ?_⟩
  · intro rows a b hsub htot
    have hp : List.Pairwise row_rank_ge [a, b] :=
      (List.sorted_insertionSort row_rank_ge rows).sublist hsub
    have hab : row_rank_ge a b := List.rel_of_pairwise_cons hp (List.mem_cons_self b [])
    rcases hab with h | ⟨_, h⟩
    · rw [row_sort_key, row_sort_key] at h
      simp only at h
      rw [htot] at h
      exact absurd h (lt_irrefl _)
    · exact h
  · intro rows a b hab hsub
    exact List.pair_sublist_insertionSort hab hsub

/-- Witness for C7 at two concrete rows with equal effective total time 6 and
counts 5 and 3: the stability conjunct keeps them in input order. -/
theorem C7_ranking_sort_witness :
    List.Sublist
      [(⟨"a.php", 5, none, none, some 6, 1⟩ : SlowScriptRow),
        (⟨"b.php", 3, none, none, some 6, 1⟩ : SlowScriptRow)]
      (sort_slow_scripts
        [⟨"a.php", 5, none, none, some 6, 1⟩, ⟨"b.php", 3, none, none, some 6, 1⟩]) :=
  C7_ranking_sort.2.2.2.2
    [⟨"a.php", 5, none, none, some 6, 1⟩, ⟨"b.php", 3, none, none, some 6, 1⟩]
    ⟨"a.php", 5, none, none, some 6, 1⟩ ⟨"b.php", 3, none, none, some 6, 1⟩
    (Or.inr ⟨rfl, by decide⟩) (List.Sublist.refl _)

/-- Closed form of the level loop: it appends to the accumulators exactly the
tested trace, the records of its gate-passing members, and takes the last
accepted level as the maximum. -/
theorem run_ladder_eq (measure : ℕ → LevelMeasurement) (td : ℚ) :
    ∀ (lad : List ℕ) (maxC : ℕ) (levels : List CapacityLevel) (tested : List ℕ),
      run_ladder measure td lad maxC levels tested =
        (((tested_in_run measure td lad).filter
            (fun l => level_passes (measure l))).getLastD maxC,
          levels ++ ((tested_in_run measure td lad).filter
            (fun l => level_passes (measure l))).map (capacity_record measure),
          tested ++ tested_in_run measure td lad) := by
  intro lad
  induction lad with
  | nil => intro maxC levels tested; simp [run_ladder, tested_in_run]
  | cons l rest ih =>
    intro maxC levels tested
    by_cases hp : level_passes (measure l)
    · by_cases hd : (measure l).elapsed > td
      · simp [run_ladder, tested_in_run, hp, hd, List.filter]
      · have htr : tested_in_run measure td (l :: rest) =
            l :: tested_in_run measure td rest := by
          simp [tested_in_run, hp, hd]
        simp only [run_ladder, hp, hd, if_true, if_false]
        rw [ih l (levels ++ [capacity_record measure l]) (tested ++ [l]), htr]
        simp only [List.filter_cons, hp, if_true, List.getLastD_cons, List.map_cons,
          List.append_assoc, List.cons_append, List.singleton_append, List.nil_append]
    · simp [run_ladder, tested_in_run, hp, List.filter]

/-- The tested trace is a prefix of the ladder. -/
theorem tested_in_run_is_take (measure : ℕ → LevelMeasurement) (td : ℚ) :
    ∀ lad : List ℕ, ∃ k, tested_in_run measure td lad = lad.take k := by
  intro lad
  induction lad with
  | nil => exact ⟨0, rfl⟩
  | cons l rest ih =>
    by_cases hp : level_passes (measure l)
    · by_cases hd : (measure l).elapsed > td
      · exact ⟨1, by simp [tested_in_run, hp, hd]⟩
      · obtain ⟨k, hk⟩ := ih
        exact ⟨k + 1, by simp [tested_in_run, hp, hd, hk]⟩
    · exact ⟨1, by simp [tested_in_run, hp]⟩

/-- A tested level that fails the gate is the last tested level: the loop
terminates at the first failing level. -/
theorem tested_in_run_fail_last (measure : ℕ → LevelMeasurement) (td : ℚ) :
    ∀ (lad : List ℕ) (l : ℕ), l ∈ tested_in_run measure td lad →
      level_passes (measure l) = false →
      (tested_in_run measure td lad).getLast? = some l := by
  intro lad
  induction lad with
  | nil => intro l hl; exact absurd hl (by simp [tested_in_run])
  | cons a rest ih =>
    intro l hl hfail
    by_cases hp : level_passes (measure a)
    · by_cases hd : (measure a).elapsed > td
      · simp only [tested_in_run, hp, hd, if_true] at hl ⊢
        rcases List.mem_singleton.mp hl with rfl
        exact absurd hp (by simp [hfail])
      · simp only [tested_in_run, hp, hd, if_true, if_false] at hl ⊢
        rcases List.mem_cons.mp hl with rfl | hmem
        · exact absurd hp (by simp [hfail])
        · have htail := ih l hmem hfail
          have hne : tested_in_run measure td rest ≠ [] := List.ne_nil_of_mem hmem
          obtain ⟨t, ts, hrest⟩ := List.exists_cons_of_ne_nil hne
          rw [hrest] at htail ⊢
          rw [List.getLast?_cons_cons]
          exact htail
    · simp only [tested_in_run, hp, if_false] at hl ⊢
      rcases List.mem_singleton.mp hl with rfl
      exact rfl

/-- The fields of the capacity result, read off the closed form of the level
loop. -/
theorem estimate_concurrent_users_fields (measure : ℕ → LevelMeasurement)
    (td : ℚ) :
    (estimate_concurrent_users measure td).tested_levels =
        tested_in_run measure td concurrency_ladder ∧
      (estimate_concurrent_users measure td).successful_test_levels =
        ((tested_in_run measure td concurrency_ladder).filter
          (fun l => level_passes (measure l))).map (capacity_record measure) ∧
      (estimate_concurrent_users measure td).estimated_max_concurrent_users =
        ((tested_in_run measure td concurrency_ladder).filter
          (fun l => level_passes (measure l))).getLastD 0 := by
  unfold estimate_concurrent_users
  rw [run_ladder_eq]
  exact ⟨rfl, rfl, rfl⟩

/-- C3: a tested concurrency level is accepted and recorded exactly when
`success_rate > 95` and `avg_response_ms < 5000`; the loop tests a prefix of
the fixed ladder `[5,10,20,30,50,75,100]`, takes the last accepted level as
the estimated maximum, and terminates at the first failing level (a tested
level that fails the gate is always the last one tested).  In the spec's
scenario — levels 5 and 10 pass with full success and 300 ms responses,
level 20 reaches only 80 percent — the estimated maximum is 10 and the
tested levels are exactly `[5,10,20]`, so 30, 50, 75 and 100 are never
tested. -/
theorem C3_capacity_gate :
    (∀ (measure : ℕ → LevelMeasurement) (td : ℚ),
      ∃ k, (estimate_concurrent_users measure td).tested_levels =
        concurrency_ladder.take k) ∧
      (∀ (measure : ℕ → LevelMeasurement) (td : ℚ),
        (estimate_concurrent_users measure td).successful_test_levels =
          ((estimate_concurrent_users measure td).tested_levels.filter
            (fun l => level_passes (measure l))).map (capacity_record measure)) ∧
      (∀ (measure : ℕ → LevelMeasurement) (td : ℚ),
        (estimate_concurrent_users measure td).estimated_max_concurrent_users =
          ((estimate_concurrent_users measure td).tested_levels.filter
            (fun l => level_passes (measure l))).getLastD 0) ∧
      (∀ (measure : ℕ → LevelMeasurement) (td : ℚ) (l : ℕ),
        l ∈ (estimate_concurrent_users measure td).tested_levels →
        level_passes (measure l) = false →
        (estimate_concurrent_users measure td).tested_levels.getLast? = some l) ∧
      ((estimate_concurrent_users scenario_measure 30).estimated_max_concurrent_users
          = 10 ∧
        (estimate_concurrent_users scenario_measure 30).tested_levels = [5, 10, 20]) := by
  refine ⟨?_, ?_, ?_, ?_, by decide, by decide⟩
  · intro measure td
    rw [(estimate_concurrent_users_fields measure td).1]
    exact tested_in_run_is_take measure td concurrency_ladder
  · intro measure td
    rw [(estimate_concurrent_users_fields measure td).1,
      (estimate_concurrent_users_fields measure td).2.1]
  · intro measure td
    rw [(estimate_concurrent_users_fields measure td).1,
      (estimate_concurrent_users_fields measure td).2.2]
  · intro measure td l hmem hfail
    rw [(estimate_concurrent_users_fields measure td).1] at hmem ⊢
    exact tested_in_run_fail_last measure td concurrency_ladder l hmem hfail

/-- Witness for C3 at the spec scenario: level 20 is tested, fails the gate,
and is the last level the loop tests. -/
theorem C3_capacity_gate_witness :
    (estimate_concurrent_users scenario_measure 30).tested_levels.getLast? = some 20 :=
  C3_capacity_gate.2.2.2.1 scenario_measure 30 20 (by decide) (by decide)

/-- C5 counterexample: in the spec scenario, level 20 is tested and is the
failing level that terminated the search, yet no record for it appears in
`successful_test_levels` — the result does not retain the failing level. -/
theorem C5_counterexample :
    20 ∈ (estimate_concurrent_users scenario_measure 30).tested_levels ∧
      level_passes (scenario_measure 20) = false ∧
      ∀ r ∈ (estimate_concurrent_users scenario_measure 30).successful_test_levels,
        r.concurrent_users ≠ 20 := by
  decide

/-- C5 (amended): the capacity result retains one `CapacityLevel` record per
tested tier that passed the gate — in ladder order and with its measured,
two-decimal-rounded success rate and average response time — and no record
for any tested level that failed the gate (in particular the failing level
that terminated the search is not retained). -/
theorem C5_retained_levels (measure : ℕ → LevelMeasurement) (td : ℚ) :
    (estimate_concurrent_users measure td).successful_test_levels =
      ((estimate_concurrent_users measure td).tested_levels.filter
        (fun l => level_passes (measure l))).map (capacity_record measure) ∧
      (∀ l ∈ (estimate_concurrent_users measure td).tested_levels,
        level_passes (measure l) = false →
        ∀ r ∈ (estimate_concurrent_users measure td).successful_test_levels,
          r.concurrent_users ≠ l) := by
  obtain ⟨h1, h2, _⟩ := estimate_concurrent_users_fields measure td
  refine ⟨by rw [h1, h2], ?_⟩
  intro l _ hfail r hr heq
  rw [h2] at hr
  obtain ⟨l', hl', hrec⟩ := List.mem_map.mp hr
  obtain ⟨-, hpass⟩ := List.mem_filter.mp hl'
  have hll : l' = l := by
    rw [← hrec] at heq
    exact heq
  rw [hll] at hpass
  simp [hfail] at hpass

/-- Witness for C5 (amended) at the spec scenario: the retained record for
level 5 is not a record of the failing level 20. -/
theorem C5_retained_levels_witness :
    (capacity_record scenario_measure 5).concurrent_users ≠ 20 :=
  (C5_retained_levels scenario_measure 30).2 20 (by decide) (by decide)
    (capacity_record scenario_measure 5) (by decide)

/-- Looking up a key after writing one summary under a key list: a hit for
the members, otherwise the old index. -/
theorem write_keys_apply (summary : AccessSummary) :
    ∀ (keys : List String) (idx : String → Option AccessSummary) (q : String),
      write_keys summary keys idx q = if q ∈ keys then some summary else idx q := by
  intro keys
  induction keys with
  | nil => intro idx q; simp [write_keys]
  | cons k rest ih =>
    intro idx q
    show write_keys summary rest (fun q => if q = k then some summary else idx q) q = _
    rw [ih]
    by_cases hq : q ∈ rest
    · simp [hq, List.mem_cons]
    · by_cases hk : q = k <;> simp [hq, hk, List.mem_cons]

/-- Folding index writes for scripts none of whose keys contain `q` leaves
the index unchanged at `q`. -/
theorem build_fold_untouched :
    ∀ (items : List (String × AccessStats)) (idx : String → Option AccessSummary)
      (q : String), (∀ a ∈ items, q ∉ script_keys a.1) →
      items.foldl
        (fun idx item =>
          write_keys (access_summary item.1 item.2) (script_keys item.1) idx) idx q =
        idx q := by
  intro items
  induction items with
  | nil => intro idx q _; rfl
  | cons a rest ih =>
    intro idx q hq
    show List.foldl _ (write_keys (access_summary a.1 a.2) (script_keys a.1) idx) rest q = _
    rw [ih _ q (fun b hb => hq b (List.mem_cons_of_mem a hb)), write_keys_apply]
    simp [hq a (List.mem_cons_self a rest)]

/-- In a collision-free index, every key variant of an indexed script
resolves to that script's summary. -/
theorem build_fold_hit (s : String) (st : AccessStats) :
    ∀ (items : List (String × AccessStats)) (idx : String → Option AccessSummary),
      (s, st) ∈ items →
      (∀ a ∈ items, ∀ b ∈ items, a ≠ b → ∀ k ∈ script_keys a.1, k ∉ script_keys b.1) →
      ∀ q ∈ script_keys s,
        items.foldl
          (fun idx item =>
            write_keys (access_summary item.1 item.2) (script_keys item.1) idx) idx q =
          some (access_summary s st) := by
  intro items
  induction items with
  | nil => intro idx hmem; exact absurd hmem (List.not_mem_nil _)
  | cons a rest ih =>
    intro idx hmem hnc q hqk
    show List.foldl _ (write_keys (access_summary a.1 a.2) (script_keys a.1) idx) rest q = _
    by_cases hr : (s, st) ∈ rest
    · exact ih _ hr
        (fun x hx y hy hxy => hnc x (List.mem_cons_of_mem a hx) y (List.mem_cons_of_mem a hy) hxy)
        q hqk
    · have ha : a = (s, st) := by
        rcases List.mem_cons.mp hmem with h | h
        · exact h.symm
        · exact absurd h hr
      rw [build_fold_untouched rest _ q ?_]
      · rw [write_keys_apply, ha]
        simp [hqk]
      · intro b hb hqb
        have hbne : (s, st) ≠ b := fun he => hr (he ▸ hb)
        exact hnc (s, st) (ha ▸ List.mem_cons_self a rest) b (List.mem_cons_of_mem a hb)
          hbne q (by simpa [ha] using hqk) hqb

/-- A path without a question mark is already clean. -/
theorem split_query_of_no_query (s : String) (hq : '?' ∉ s.toList) :
    split_query s = s := by
  unfold split_query
  have h : s.toList.takeWhile (fun c => c ≠ '?') = s.toList := by
    rw [List.takeWhile_eq_self_iff]
    intro c hc
    simp only [ne_eq, decide_eq_true_eq]
    exact fun he => hq (he ▸ hc)
  rw [h]
  cases s
  rfl

/-- The leading-slash-stripped variant keeps the absence of `'?'`. -/
theorem no_query_lstrip (s : String) (hq : '?' ∉ s.toList) :
    '?' ∉ (lstrip_slashes s).toList := by
  intro hmem
  exact hq ((List.dropWhile_sublist _).mem hmem)

/-- The basename keeps the absence of `'?'`. -/
theorem no_query_basename (s : String) (hq : '?' ∉ s.toList) :
    '?' ∉ (basename s).toList := by
  intro hmem
  have h1 : '?' ∈ s.toList.reverse.takeWhile (fun c => c ≠ '/') :=
    List.mem_reverse.mp hmem
  exact hq (List.mem_reverse.mp ((List.takeWhile_sublist _).mem h1))

/-- If the basename is nonempty then stripping the leading slashes leaves a
nonempty path. -/
theorem lstrip_ne_empty_of_basename (s : String) (hb : basename s ≠ "") :
    lstrip_slashes s ≠ "" := by
  intro he
  apply hb
  have hall : ∀ c ∈ s.toList, c = '/' := by
    have h : s.toList.dropWhile (fun c => c = '/') = [] := congrArg String.toList he
    intro c hc
    simpa using List.dropWhile_eq_nil_iff.mp h c hc
  have h2 : s.toList.reverse.takeWhile (fun c => c ≠ '/') = [] := by
    rcases hrev : s.toList.reverse with _ | ⟨c, t⟩
    · rfl
    · have hc : c = '/' := hall c (List.mem_reverse.mp (hrev ▸ List.mem_cons_self c t))
      rw [List.takeWhile_cons]
      simp [hc]
  unfold basename
  rw [h2]
  rfl

/-- If the path does not start with a slash, stripping leading slashes is the
identity. -/
theorem lstrip_of_not_slash (s : String) (hs : starts_with_slash s = false) :
    lstrip_slashes s = s := by
  have h : s.toList.dropWhile (fun c => c = '/') = s.toList := by
    rcases hl : s.toList with _ | ⟨c, t⟩
    · rfl
    · have hc : decide (c = '/') = false := by
        unfold starts_with_slash at hs
        rw [hl] at hs
        simpa using hs
      rw [List.dropWhile_cons, hc]
      simp
  unfold lstrip_slashes
  rw [h]
  cases s
  rfl

/-- A nonempty, already-clean query path whose own value hits the index
resolves through `access_match` at its first key variant. -/
theorem access_match_first_key (q : String) (idx : String → Option AccessSummary)
    (summary : AccessSummary) (hne : q ≠ "") (hcl : split_query q = q)
    (hhit : idx q = some summary) :
    access_match q idx = some summary := by
  unfold access_match
  rw [if_neg hne]
  show ([split_query q,
    if starts_with_slash (split_query q) then lstrip_slashes (split_query q)
    else "/" ++ split_query q,
    basename (split_query q)].findSome? idx) = some summary
  rw [hcl, List.findSome?_cons, hhit]

/-- C6 (amended): in a collision-free correlation index (no two indexed
scripts share any normalized key variant), every indexed clean script path
with a nonempty basename is resolvable by the raw path, by its
leading-slash-stripped variant, and by its basename alone, and all three
queries return that script's summary record.  (With colliding variants,
last-write-wins can make a basename query return a different entry's
summary — see the counterexample.) -/
theorem C6_correlation_resolution (items : List (String × AccessStats))
    (s : String) (st : AccessStats) (hmem : (s, st) ∈ items)
    (hnc : ∀ a ∈ items, ∀ b ∈ items, a ≠ b →
      ∀ k ∈ script_keys a.1, k ∉ script_keys b.1)
    (hq : '?' ∉ s.toList) (hne : s ≠ "") (hb : basename s ≠ "") :
    access_match s (build_script_index items) = some (access_summary s st) ∧
      access_match (lstrip_slashes s) (build_script_index items) =
        some (access_summary s st) ∧
      access_match (basename s) (build_script_index items) =
        some (access_summary s st) := by
  have hclean : normalize_script s = s := by
    unfold normalize_script
    rw [if_neg hne, split_query_of_no_query s hq]
  have hkeys : script_keys s =
      [s, if starts_with_slash s then lstrip_slashes s else "/" ++ s, basename s] := by
    unfold script_keys
    rw [hclean]
    rw [if_neg hne]
  have hhit : ∀ q ∈ script_keys s,
      build_script_index items q = some (access_summary s st) := by
    intro q hq'
    exact build_fold_hit s st items _ hmem hnc q hq'
  refine ⟨?_, ?_, ?_⟩
  · exact access_match_first_key s _ _ hne (split_query_of_no_query s hq)
      (hhit s (by rw [hkeys]; exact List.mem_cons_self _ _))
  · have hmem' : lstrip_slashes s ∈ script_keys s := by
      rw [hkeys]
      by_cases hsw : starts_with_slash s
      · simp only [hsw, if_true]
        exact List.mem_cons_of_mem _ (List.mem_cons_self _ _)
      · rw [lstrip_of_not_slash s (Bool.not_eq_true _ ▸ hsw)]
        exact List.mem_cons_self _ _
    exact access_match_first_key _ _ _ (lstrip_ne_empty_of_basename s hb)
      (split_query_of_no_query _ (no_query_lstrip s hq)) (hhit _ hmem')
  · have hmem' : basename s ∈ script_keys s := by
      rw [hkeys]
      exact List.mem_cons_of_mem _ (List.mem_cons_of_mem _ (List.mem_cons_self _ _))
    exact access_match_first_key _ _ _ hb
      (split_query_of_no_query _ (no_query_basename s hq)) (hhit _ hmem')

/-- Witness for C6 (amended): indexing `"/wp-content/plugins/foo/bar.php"`
alone, the basename query resolves to that entry's summary. -/
theorem C6_correlation_resolution_witness :
    access_match (basename "/wp-content/plugins/foo/bar.php")
        (build_script_index [("/wp-content/plugins/foo/bar.php", ⟨1, 2, 2⟩)]) =
      some (access_summary "/wp-content/plugins/foo/bar.php" ⟨1, 2, 2⟩) :=
  (C6_correlation_resolution [("/wp-content/plugins/foo/bar.php", ⟨1, 2, 2⟩)]
    "/wp-content/plugins/foo/bar.php" ⟨1, 2, 2⟩ (by decide) (by decide) (by decide)
    (by decide) (by decide)).2.2

/-- C6 counterexample: with both `"/a/x.php"` and `"/b/x.php"` indexed (in
that order), the raw key `"/a/x.php"` still maps to its own summary, but the
basename query `"x.php"` — the basename of the indexed path `"/a/x.php"` —
resolves to the later entry's summary, which differs; resolving by basename
does not return the same summary record as the raw path. -/
theorem C6_counterexample :
    build_script_index [("/a/x.php", ⟨1, 1, 1⟩), ("/b/x.php", ⟨2, 3, 2⟩)] "/a/x.php" =
        some (access_summary "/a/x.php" ⟨1, 1, 1⟩) ∧
      basename "/a/x.php" = "x.php" ∧
      access_match "x.php"
          (build_script_index [("/a/x.php", ⟨1, 1, 1⟩), ("/b/x.php", ⟨2, 3, 2⟩)]) =
        some (access_summary "/b/x.php" ⟨2, 3, 2⟩) ∧
      access_summary "/b/x.php" ⟨2, 3, 2⟩ ≠ access_summary "/a/x.php" ⟨1, 1, 1⟩ := by
  refine ⟨by decide, by decide, by decide, by decide⟩

/-- C10 counterexample: from the line `"GET /foo.php"` a script path is
extracted and no duration, memory, or CPU value is found — and extraction
returns the discarded no-signal result, not a record carrying the script. -/
theorem C10_counterexample :
    (extract_access_metrics_raw "GET /foo.php").script = some "/foo.php" ∧
      (extract_access_metrics_raw "GET /foo.php").request_time_sec = none ∧
      (extract_access_metrics_raw "GET /foo.php").memory_mb = none ∧
      (extract_access_metrics_raw "GET /foo.php").cpu_percent = none ∧
      extract_access_metrics "GET /foo.php" = none := by
  refine ⟨by decide, by decide, by decide, by decide, by decide⟩

/-- C10 (amended): line extraction discards a line (returns the no-signal
result) exactly when all three numeric fields — duration, memory, CPU — are
absent, even when a script path was extracted; whenever a record is returned
it carries at least one numeric field, along with the extracted script. -/
theorem C10_no_signal_gate (line : String) :
    (extract_access_metrics line = none ↔
      (extract_access_metrics_raw line).request_time_sec = none ∧
        (extract_access_metrics_raw line).memory_mb = none ∧
        (extract_access_metrics_raw line).cpu_percent = none) ∧
      ∀ m : AccessMetrics, extract_access_metrics line = some m →
        (m.request_time_sec ≠ none ∨ m.memory_mb ≠ none ∨ m.cpu_percent ≠ none) ∧
          m.script = (extract_access_metrics_raw line).script := by
  by_cases h : (extract_access_metrics_raw line).request_time_sec = none ∧
      (extract_access_metrics_raw line).memory_mb = none ∧
      (extract_access_metrics_raw line).cpu_percent = none
  · constructor
    · simp [extract_access_metrics, h]
    · intro m hm
      rw [show extract_access_metrics line = none by simp [extract_access_metrics, h]]
        at hm
      exact absurd hm (by simp)
  · have hs : extract_access_metrics line = some (extract_access_metrics_raw line) := by
      simp [extract_access_metrics, h]
    constructor
    · rw [hs]
      simp [h]
    · intro m hm
      rw [hs] at hm
      obtain rfl : extract_access_metrics_raw line = m := Option.some.inj hm
      refine ⟨?_, rfl⟩
      by_contra hall
      push_neg at hall
      exact h ⟨hall.1, hall.2.1, hall.2.2⟩

/-- Witness for C10 (amended) at the line `"time=5s"`, which carries a
duration signal and no script: the returned record has the parsed 5-second
request time and the raw pipeline's (absent) script. -/
theorem C10_no_signal_gate_witness :
    ((⟨some 5, none, none, none⟩ : AccessMetrics).request_time_sec ≠ none ∨
      (⟨some 5, none, none, none⟩ : AccessMetrics).memory_mb ≠ none ∨
      (⟨some 5, none, none, none⟩ : AccessMetrics).cpu_percent ≠ none) ∧
      (⟨some 5, none, none, none⟩ : AccessMetrics).script =
        (extract_access_metrics_raw "time=5s").script :=
  (C10_no_signal_gate "time=5s").2 ⟨some 5, none, none, none⟩ (by decide)
